import Mathlib

/-!
Verification development for the tea-diary chat bot (tasting journal).

The definitions below are a shallow embedding of the relevant parts of
the repository: the database rows and the record-creation service
(src/app/services/tastings.py), the inline persistence performed at
wizard completion, the search/pagination queries, the "load more"
throttle, the lenient numeric parsing of the creation wizard and the
strict validation of the edit flow (src/app/main.py).

Conventions of the embedding:
- machine integers become Int, SQL float columns become Rat,
  nullable columns become Option;
- a database is a record of row lists plus the autoincrement counter
  that the tastings primary key draws from;
- an SQL result set ordered by id descending is modelled by an
  insertion sort on the row list;
- an IntegrityError raised by the unique (user_id, seq_no) index during
  a concurrent allocation race cannot arise in a sequential embedding,
  so transactional code is parameterised by a conflict oracle saying
  which attempts hit the violation; a failed attempt rolls back, so it
  returns the database unchanged.
-/

namespace TeaDiary

/-- Row of the tastings table (src/app/db models, fields as written by
the wizard and the edit flow). -/
structure TastingRow where
  id : Int
  user_id : Int
  seq_no : Int
  name : Option String := none
  year : Option Int := none
  region : Option String := none
  category : Option String := none
  grams : Option Rat := none
  temp_c : Option Int := none
  tasted_at : Option String := none
  gear : Option String := none
  aroma_dry : Option String := none
  aroma_warmed : Option String := none
  aroma_after : Option String := none
  effects_csv : Option String := none
  scenarios_csv : Option String := none
  rating : Int := 0
  summary : Option String := none
deriving Repr, DecidableEq

/-- Row of the infusions table. -/
structure InfusionRow where
  tasting_id : Int
  n : Option Int
  seconds : Option Int
  liquor_color : Option String
  taste : Option String
  special_notes : Option String
  body : Option String
  aftertaste : Option String
deriving Repr, DecidableEq

/-- Row of the photos table. -/
structure PhotoRow where
  tasting_id : Int
  file_id : String
deriving Repr, DecidableEq

/-- Database state: the three tables touched by the tasting lifecycle,
plus the autoincrement counter backing the tastings primary key
(assigned at flush time). -/
structure DB where
  nextId : Int
  tastings : List TastingRow
  infusions : List InfusionRow
  photos : List PhotoRow
deriving Repr, DecidableEq

/-- Python truthiness of an optional integer: the expression
left-operand-or-default, where None and 0 are falsy. -/
def pyOrInt (x : Option Int) (d : Int) : Int :=
  match x with
  | none => d
  | some v => if v = 0 then d else v

/-- The seq_no values of one user, in table order
(select Tasting.seq_no where user_id == uid). -/
def userSeqNos (db : DB) (uid : Int) : List Int :=
  (db.tastings.filter (fun t => t.user_id == uid)).map (fun t => t.seq_no)

/-- Embeds services.tastings next-seq-for-user: the select of the
largest seq_no of the user (order by seq_no desc, limit 1 -- i.e. the
maximum, read with FOR UPDATE on backends that support row locks),
then last-seq-or-0 plus 1. -/
def next_seq_for_user (db : DB) (uid : Int) : Int :=
  pyOrInt (userSeqNos db uid).max? 0 + 1

/-- The wizard-accumulated attribute bundle for the tasting row
(dict tasting_data of services.tastings.create_tasting). -/
structure TastingData where
  user_id : Int
  name : Option String := none
  year : Option Int := none
  region : Option String := none
  category : Option String := none
  grams : Option Rat := none
  temp_c : Option Int := none
  tasted_at : Option String := none
  gear : Option String := none
  aroma_dry : Option String := none
  aroma_warmed : Option String := none
  aroma_after : Option String := none
  effects_csv : Option String := none
  scenarios_csv : Option String := none
  rating : Int := 0
  summary : Option String := none
deriving Repr, DecidableEq

/-- One accumulated infusion bundle (dict entries of the infusions
argument; absent keys read with dict.get default to none). -/
structure InfusionData where
  n : Option Int := none
  seconds : Option Int := none
  liquor_color : Option String := none
  taste : Option String := none
  special_notes : Option String := none
  body : Option String := none
  aftertaste : Option String := none
deriving Repr, DecidableEq

/-- Building the ORM Tasting object: Tasting with seq_no and the
unpacked tasting_data bundle; id is the autoincrement value assigned at
flush. -/
def mkTastingRow (id seq : Int) (td : TastingData) : TastingRow :=
  { id := id, user_id := td.user_id, seq_no := seq, name := td.name,
    year := td.year, region := td.region, category := td.category,
    grams := td.grams, temp_c := td.temp_c, tasted_at := td.tasted_at,
    gear := td.gear, aroma_dry := td.aroma_dry,
    aroma_warmed := td.aroma_warmed, aroma_after := td.aroma_after,
    effects_csv := td.effects_csv, scenarios_csv := td.scenarios_csv,
    rating := td.rating, summary := td.summary }

/-- Building one ORM Infusion child row for the freshly flushed
tasting. -/
def mkInfusionRow (tid : Int) (i : InfusionData) : InfusionRow :=
  { tasting_id := tid, n := i.n, seconds := i.seconds,
    liquor_color := i.liquor_color, taste := i.taste,
    special_notes := i.special_notes, body := i.body,
    aftertaste := i.aftertaste }

/-- Retry budget of services.tastings (two attempts in total). -/
def MAX_CREATE_ATTEMPTS : Nat := 2

/-- The state after the commit of one successful creation transaction:
the tasting with the freshly allocated seq_no and autoincrement id,
its infusion child rows and its photo child rows, all appended within
one transaction. -/
def createdPair (db : DB) (td : TastingData)
    (infusions : List InfusionData) (photo_ids : List String) :
    DB × TastingRow :=
  let seq := next_seq_for_user db td.user_id
  let t := mkTastingRow db.nextId seq td
  ({ nextId := db.nextId + 1,
     tastings := db.tastings ++ [t],
     infusions := db.infusions ++ infusions.map (mkInfusionRow t.id),
     photos := db.photos ++
       photo_ids.map (fun fid => { tasting_id := t.id, file_id := fid }) },
   t)

/-- One attempt of the creation transaction (the body of the with
session.begin block of create_tasting): allocate the next seq_no, add
the tasting, flush to obtain its id, add the infusion and photo child
rows, commit. conflictThis says whether the unique (user_id, seq_no)
index rejects this attempt (IntegrityError); in that case the
transaction rolls back and the database is unchanged. -/
def create_attempt (db : DB) (td : TastingData)
    (infusions : List InfusionData) (photo_ids : List String)
    (conflictThis : Bool) : Option (DB × TastingRow) :=
  if conflictThis then none
  else some (createdPair db td infusions photo_ids)

/-- The attempts loop of create_tasting (source: while attempts < MAX,
retrying on IntegrityError and re-raising once the budget is
exhausted), written as recursion on the remaining budget
MAX - attempts. An error result carries the database, which every
failed attempt left unchanged by rollback. -/
def create_tasting_from (db : DB) (td : TastingData)
    (infusions : List InfusionData) (photo_ids : List String)
    (conflict : Nat → Bool) (attempts : Nat) :
    Nat → Except DB (DB × TastingRow)
  | 0 => Except.error db
  | Nat.succ budget =>
    match create_attempt db td infusions photo_ids (conflict attempts) with
    | some r => Except.ok r
    | none =>
      if attempts + 1 ≥ MAX_CREATE_ATTEMPTS then Except.error db
      else create_tasting_from db td infusions photo_ids conflict
        (attempts + 1) budget

/-- Embeds services.tastings.create_tasting: create the tasting
together with its infusions and photos, retrying the whole transaction
once on a uniqueness violation. -/
def create_tasting (db : DB) (td : TastingData)
    (infusions : List InfusionData) (photo_ids : List String)
    (conflict : Nat → Bool) : Except DB (DB × TastingRow) :=
  create_tasting_from db td infusions photo_ids conflict 0 MAX_CREATE_ATTEMPTS

/-! ### Wizard-completion inline persistence (main.finalize_save) -/

/-- Photo cap (main.MAX_PHOTOS). -/
def MAX_PHOTOS : Nat := 3

/-- Pythons join-then-or-none idiom: the comma join of a list, turned
into none when the joined string is empty (empty string is falsy). -/
def joinCommaOrNone (l : List String) : Option String :=
  let s := String.intercalate "," l
  if s = "" then none else some s

/-- Pythons value-or-none idiom on an optional string: an empty string
is falsy and becomes none. -/
def pyStrOrNone (x : Option String) : Option String :=
  match x with
  | none => none
  | some s => if s = "" then none else some s

/-- The session-state bag of the creation wizard at finalize time (the
keys finalize_save reads with data.get). -/
structure WizardData where
  user_id : Int
  name : Option String := none
  year : Option Int := none
  region : Option String := none
  category : Option String := none
  grams : Option Rat := none
  temp_c : Option Int := none
  tasted_at : Option String := none
  gear : Option String := none
  aroma_dry : Option String := none
  aroma_warmed : Option String := none
  aroma_after : Option String := none
  effects : List String := []
  scenarios : List String := []
  rating : Option Int := none
  summary : Option String := none
  infusions : List InfusionData := []
  new_photos : List String := []
deriving Repr, DecidableEq

/-- The Tasting construction inside finalize_save: the session fields,
with effects and scenarios comma-joined (empty join falsy to none),
rating defaulting to 0 and summary-or-none. -/
def finalize_tasting_data (d : WizardData) : TastingData :=
  { user_id := d.user_id, name := d.name, year := d.year,
    region := d.region, category := d.category, grams := d.grams,
    temp_c := d.temp_c, tasted_at := d.tasted_at, gear := d.gear,
    aroma_dry := d.aroma_dry, aroma_warmed := d.aroma_warmed,
    aroma_after := d.aroma_after,
    effects_csv := joinCommaOrNone d.effects,
    scenarios_csv := joinCommaOrNone d.scenarios,
    rating := d.rating.getD 0,
    summary := pyStrOrNone d.summary }

/-- Embeds the persistence block of main.finalize_save: one inline
session that reads the users maximum seq_no with a plain aggregate
(select func.max, no FOR UPDATE), assigns max-or-0 plus 1, adds the
tasting, flushes, adds the infusion rows and the photo rows (photos
capped to MAX_PHOTOS beforehand) and commits. There is no retry: a
uniqueness violation at commit (conflictCommit) propagates to the
caller with the transaction rolled back. -/
def finalize_save_persist (db : DB) (d : WizardData)
    (conflictCommit : Bool) : Except DB (DB × TastingRow) :=
  if conflictCommit then Except.error db
  else
    let td := finalize_tasting_data d
    let max_seq := pyOrInt (userSeqNos db d.user_id).max? 0
    let t := mkTastingRow db.nextId (max_seq + 1) td
    let new_photos := d.new_photos.take MAX_PHOTOS
    Except.ok
      ({ nextId := db.nextId + 1,
         tastings := db.tastings ++ [t],
         infusions := db.infusions ++ d.infusions.map (mkInfusionRow t.id),
         photos := db.photos ++
           new_photos.map (fun fid => { tasting_id := t.id, file_id := fid }) },
       t)

/-! ### String helpers mirroring the Python primitives.

The embedding works on the underlying character lists (String.mk and
String.data) so that every operation evaluates inside the kernel; the
built-in String versions of strip, lowercasing and splitting are
compiled primitives that proofs by decide cannot unfold. -/

/-- str.strip: surrounding whitespace removed. -/
def pyStrip (s : String) : String :=
  String.mk
    (((s.data.dropWhile Char.isWhitespace).reverse.dropWhile
      Char.isWhitespace).reverse)

/-- str.isdigit restricted to ASCII decimal digits: nonempty and all
characters are digits. -/
def isPyDigit (s : String) : Bool :=
  !s.data.isEmpty && s.data.all Char.isDigit

/-- Value of a decimal digit string (what int returns on a string of
digits). -/
def decDigitsVal (s : String) : Nat :=
  s.data.foldl (fun acc c => acc * 10 + (c.toNat - 48)) 0

/-- Pythons int applied to a string: surrounding whitespace stripped,
then an optional sign followed by digits (underscore grouping and
other exotica are not modelled). -/
def pyInt? (s : String) : Option Int :=
  let t := pyStrip s
  match t.data with
  | List.cons c rest =>
    if c = '-' then
      if isPyDigit (String.mk rest) then
        some (-(decDigitsVal (String.mk rest) : Int))
      else none
    else if c = '+' then
      if isPyDigit (String.mk rest) then
        some ((decDigitsVal (String.mk rest) : Int))
      else none
    else if isPyDigit t then some ((decDigitsVal t : Int)) else none
  | List.nil => none

/-- Integer value of a digit-character list. -/
def decIntPart (cs : List Char) : Nat :=
  cs.foldl (fun a c => a * 10 + (c.toNat - 48)) 0

/-- Fractional value of the digit-character list after the decimal
point. -/
def decFracPart (cs : List Char) : Rat :=
  cs.foldr (fun c acc => (acc + ((c.toNat - 48 : Nat) : Rat)) / 10) 0

/-- Pythons float applied to a plain decimal literal: surrounding
whitespace stripped, optional sign, digits with at most one decimal
point and at least one digit. Scientific notation, inf and nan, which
float also accepts, are not modelled (no caller feeds them). -/
def pyFloat? (s : String) : Option Rat :=
  let cs0 := (pyStrip s).data
  let signed : Rat × List Char :=
    match cs0 with
    | List.cons c rest =>
      if c = '-' then (-1, rest) else if c = '+' then (1, rest) else (1, cs0)
    | List.nil => (1, cs0)
  let sign := signed.1
  let cs := signed.2
  let ip := cs.takeWhile Char.isDigit
  let rest := cs.dropWhile Char.isDigit
  match rest with
  | List.nil => if ip.isEmpty then none else some (sign * (decIntPart ip : Rat))
  | List.cons c fp =>
    if c = '.' && fp.all Char.isDigit && (!ip.isEmpty || !fp.isEmpty) then
      some (sign * ((decIntPart ip : Rat) + decFracPart fp))
    else none

/-- Pythons int applied to a float: truncation toward zero. -/
def ratTruncToInt (q : Rat) : Int :=
  if q < 0 then -((-q).floor) else q.floor

/-- str.replace for a single-character pattern (the only form the
source uses: commas become dots). -/
def replaceChar (a b : Char) (s : String) : String :=
  String.mk (s.data.map (fun c => if c = a then b else c))

/-- str.lower (ASCII). -/
def lowerStr (s : String) : String :=
  String.mk (s.data.map Char.toLower)

/-- Prefix test on character lists. -/
def hasPrefixC : List Char → List Char → Bool
  | List.nil, _ => true
  | List.cons _ _, List.nil => false
  | List.cons p ps, List.cons c cs => p = c && hasPrefixC ps cs

/-- Substring test on character lists. -/
def hasInfixC (pat : List Char) : List Char → Bool
  | List.nil => pat.isEmpty
  | List.cons c cs => hasPrefixC pat (c :: cs) || hasInfixC pat cs

/-- Case-insensitive substring test (SQL ILIKE with wildcards on both
sides); the pattern is nonempty at every call site. -/
def strContainsCI (hay pat : String) : Bool :=
  hasInfixC (lowerStr pat).data (lowerStr hay).data

/-- Case-insensitive string equality (SQL ILIKE without wildcards). -/
def strIEqCI (a b : String) : Bool :=
  lowerStr a == lowerStr b

/-- str.split on a single-character separator. -/
def splitChar (sep : Char) (cs : List Char) : List (List Char) :=
  cs.foldr
    (fun c acc =>
      match acc with
      | List.cons a rest => if c = sep then [] :: a :: rest else (c :: a) :: rest
      | List.nil => [[c]])
    [[]]

/-! ### Sorted-by-id-descending result sets -/

/-- Insertion into a list kept in descending id order. -/
def insertDescById (t : TastingRow) : List TastingRow → List TastingRow
  | List.nil => [t]
  | List.cons u us =>
    if u.id ≤ t.id then t :: u :: us else u :: insertDescById t us

/-- ORDER BY id DESC on a row list. -/
def sortDescById (l : List TastingRow) : List TastingRow :=
  l.foldr insertDescById []

/-- Strictly descending ids (the order of a result set of rows with
distinct primary keys, newest first). -/
abbrev IdsDesc (l : List TastingRow) : Prop :=
  l.Pairwise (fun a b => b.id < a.id)

/-! ### Search and pagination (main.apply_search_filters,
main.fetch_tastings_page, main.more_allowed, main.more_last) -/

/-- Fixed page size (main.PAGE_SIZE). -/
def PAGE_SIZE : Nat := 5

/-- The search dimensions of the search menu (the kind argument of
apply_search_filters). -/
inductive FilterKind
  | last
  | name
  | cat
  | year
  | rating
deriving Repr, DecidableEq

/-- Embeds main.apply_search_filters as the predicate the WHERE clause
adds to the statement; none is the degenerate-value case in which the
source returns None instead of a statement. A NULL column never
satisfies ILIKE or an equality comparison, hence the option matches. -/
def apply_search_filters (kind : FilterKind) (extra : String) :
    Option (TastingRow → Bool) :=
  let extra_clean := pyStrip extra
  match kind with
  | FilterKind.last => some (fun _ => true)
  | FilterKind.name =>
    if extra_clean = "" then none
    else some (fun t =>
      match t.name with
      | none => false
      | some nm => strContainsCI nm extra_clean)
  | FilterKind.cat =>
    if extra_clean = "" then none
    else some (fun t =>
      match t.category with
      | none => false
      | some c => strIEqCI c extra_clean)
  | FilterKind.year =>
    if isPyDigit extra_clean then
      some (fun t => t.year == some ((decDigitsVal extra_clean : Int)))
    else none
  | FilterKind.rating =>
    match pyInt? extra_clean with
    | none => none
    | some thr => some (fun t => decide (thr ≤ t.rating))

/-- The cursor condition of a page query: id strictly below min_id when
a cursor is present. -/
def idBelow (min_id : Option Int) (t : TastingRow) : Bool :=
  match min_id with
  | none => true
  | some c => decide (t.id < c)

/-- Embeds main.fetch_tastings_page: rows of the requesting user
matching the filter, below the cursor when one is given, ordered by id
descending, limited to PAGE_SIZE; then a probe for one more matching
row older than the last (smallest-id) row of the page. A degenerate
filter or an empty page yields no rows and no next-page flag. -/
def fetch_tastings_page (db : DB) (uid : Int) (kind : FilterKind)
    (extra : String) (min_id : Option Int) : List TastingRow × Bool :=
  match apply_search_filters kind extra with
  | none => ([], false)
  | some filt =>
    let rows :=
      (sortDescById (db.tastings.filter
        (fun t => t.user_id == uid && filt t && idBelow min_id t))).take PAGE_SIZE
    match rows.getLast? with
    | none => ([], false)
    | some lastRow =>
      let more :=
        !(db.tastings.filter
          (fun t => t.user_id == uid && filt t && decide (t.id < lastRow.id))).isEmpty
      (rows, more)

/-- The repeated load-more protocol of the spec: request a page, and
while the next-page flag is set request the next page with the cursor
set to the smallest id of the previous page (the payload min_id that
more_last feeds back into fetch_tastings_page). Fuel bounds the number
of rounds; the theorems supply enough fuel to exhaust the result. -/
def fetchPages (db : DB) (uid : Int) (kind : FilterKind) (extra : String) :
    Option Int → Nat → List (List TastingRow)
  | _, 0 => []
  | cursor, Nat.succ fuel =>
    match fetch_tastings_page db uid kind extra cursor with
    | ([], _) => []
    | (List.cons r rs, more) =>
      (r :: rs) ::
        (if more then
          fetchPages db uid kind extra (some ((r :: rs).getLast (by simp)).id) fuel
        else [])

/-- Throttle interval of the load-more button, seconds
(main.MORE_THROTTLE_INTERVAL). -/
def MORE_THROTTLE_INTERVAL : Rat := 1

/-- Embeds main.more_allowed over an explicit throttle state: the
MORE_THROTTLE dict becomes a total map with default 0 (dict.get with
default 0.0). Inside the window nothing is recorded; otherwise the
users last-invocation time is set to now. -/
def more_allowed (throttle : Int → Rat) (now : Rat) (uid : Int) :
    Bool × (Int → Rat) :=
  let last := throttle uid
  if now - last < MORE_THROTTLE_INTERVAL then (false, throttle)
  else (true, fun u => if u = uid then now else throttle u)

/-- The decoded load-more payload: user id segment, cursor segment and
the base64url-decoded filter value. -/
structure MorePayload where
  uid : Int
  min_id : Int
  extra : String
deriving Repr, DecidableEq

/-- Observable outcome of one load-more callback. -/
inductive MoreOutcome
  | ignored
  | contextLost
  | throttled
  | noMore
  | page (rows : List TastingRow) (more : Bool)
deriving Repr, DecidableEq

/-- Embeds main.more_last for the recency feed: decode the payload
(none models a decode failure, answered silently); reject a payload
whose user segment differs from the invoking user with the
context-lost notice, before any throttle bookkeeping or query; then
the throttle gate; then the page query with the payload cursor. The
second component is the throttle state afterwards. -/
def more_last (db : DB) (throttle : Int → Rat) (now : Rat)
    (callerUid : Int) (payload : Option MorePayload) :
    MoreOutcome × (Int → Rat) :=
  match payload with
  | none => (MoreOutcome.ignored, throttle)
  | some p =>
    if p.uid != callerUid then (MoreOutcome.contextLost, throttle)
    else
      let gate := more_allowed throttle now callerUid
      if !gate.1 then (MoreOutcome.throttled, throttle)
      else
        match fetch_tastings_page db callerUid FilterKind.last p.extra
          (some p.min_id) with
        | ([], _) => (MoreOutcome.noMore, gate.2)
        | (List.cons r rs, more) => (MoreOutcome.page (r :: rs) more, gate.2)

/-! ### Creation-wizard numeric steps (main.year_in, main.grams_in,
main.temp_in) -/

/-- The wizard step the New-Tasting state machine moves to after each
of the numeric text handlers (state.set_state at the end of the
handler). -/
inductive WizStep
  | year
  | region
  | grams
  | temp_c
  | tasted_at
  | gear
deriving Repr, DecidableEq

/-- Embeds main.year_in: strip, store int when str.isdigit holds and
None otherwise, then move to the region step unconditionally. -/
def year_in (txt : String) : Option Int × WizStep :=
  let t := pyStrip txt
  ((if isPyDigit t then some ((decDigitsVal t : Int)) else none),
   WizStep.region)

/-- Embeds main.grams_in: commas become dots, then float with failures
coerced to None, then move to the temperature step unconditionally. -/
def grams_in (txt : String) : Option Rat × WizStep :=
  (pyFloat? (replaceChar ',' '.' txt), WizStep.temp_c)

/-- Embeds main.temp_in: int of float of the stripped text with
failures coerced to None, then move to the tasted-at step
unconditionally. -/
def temp_in (txt : String) : Option Int × WizStep :=
  ((pyFloat? txt).map ratTruncToInt, WizStep.tasted_at)

/-! ### Edit flow (main.prepare_text_edit, main.update_tasting_fields,
main.edit_flow_msg) -/

/-- A value bound for a column update (the union of value types
prepare_text_edit can return). -/
inductive EditValue
  | s (v : String)
  | i (v : Int)
  | r (v : Rat)
deriving Repr, DecidableEq

/-- The corrective error prompts of prepare_text_edit, with the message
text abstracted to its kind (re-prompt with the field prompt, or the
field-specific format complaint prefixed to it). -/
inductive EditError
  | emptyPrompt
  | yearFormat
  | gramsFormat
  | tempFormat
  | timeFormat
deriving Repr, DecidableEq

/-- One entry of main.EDIT_TEXT_FIELDS (the prompt text itself is not
needed by any claim). -/
structure FieldCfg where
  allow_clear : Bool
  column : String
deriving Repr, DecidableEq

/-- Embeds the EDIT_TEXT_FIELDS dict keyed by field name. -/
def EDIT_TEXT_FIELDS (field : String) : Option FieldCfg :=
  if field = "name" then some { allow_clear := false, column := "name" }
  else if field = "year" then some { allow_clear := true, column := "year" }
  else if field = "region" then some { allow_clear := true, column := "region" }
  else if field = "grams" then some { allow_clear := true, column := "grams" }
  else if field = "temp_c" then some { allow_clear := true, column := "temp_c" }
  else if field = "tasted_at" then
    some { allow_clear := true, column := "tasted_at" }
  else if field = "gear" then some { allow_clear := true, column := "gear" }
  else if field = "aroma_dry" then
    some { allow_clear := true, column := "aroma_dry" }
  else if field = "aroma_warmed" then
    some { allow_clear := true, column := "aroma_warmed" }
  else if field = "effects" then
    some { allow_clear := true, column := "effects_csv" }
  else if field = "scenarios" then
    some { allow_clear := true, column := "scenarios_csv" }
  else if field = "summary" then some { allow_clear := true, column := "summary" }
  else none

/-- Embeds main.normalize_csv_text: split on commas, strip each piece,
drop empties, rejoin with comma-space. -/
def normalize_csv_text (raw : String) : String :=
  String.intercalate ", "
    (((splitChar ',' raw.data).map (fun cs => pyStrip (String.mk cs))).filter
      (fun p => p ≠ ""))

/-- Validity of a time string under datetime.strptime with the
hours-colon-minutes format: one or two digits each, hour below 24,
minute below 60. -/
def isValidHM (s : String) : Bool :=
  match (splitChar ':' s.data).map String.mk with
  | [h, m] =>
    isPyDigit h && h.length ≤ 2 && isPyDigit m && m.length ≤ 2 &&
      decide (decDigitsVal h < 24) && decide (decDigitsVal m < 60)
  | _ => false

/-- Embeds main.prepare_text_edit: strip the input; empty input
re-prompts; the dash sentinel clears when the field allows it;
otherwise field-specific validation produces either a value and the
target column or a corrective error. -/
def prepare_text_edit (field : String) (raw : String) :
    Option EditValue × Option EditError × Option String :=
  match EDIT_TEXT_FIELDS field with
  | none => (none, some EditError.emptyPrompt, none)
  | some cfg =>
    let text := pyStrip raw
    if text = "" then (none, some EditError.emptyPrompt, none)
    else if text = "-" then
      if cfg.allow_clear then (none, none, some cfg.column)
      else (none, some EditError.emptyPrompt, none)
    else if field = "name" then (some (EditValue.s text), none, some cfg.column)
    else if field = "year" then
      if text.length = 4 && isPyDigit text then
        (some (EditValue.i (decDigitsVal text)), none, some cfg.column)
      else (none, some EditError.yearFormat, none)
    else if field = "grams" then
      match pyFloat? (replaceChar ',' '.' text) with
      | none => (none, some EditError.gramsFormat, none)
      | some v => (some (EditValue.r v), none, some cfg.column)
    else if field = "temp_c" then
      match pyInt? text with
      | none => (none, some EditError.tempFormat, none)
      | some v => (some (EditValue.i v), none, some cfg.column)
    else if field = "tasted_at" then
      if isValidHM text then (some (EditValue.s text), none, some cfg.column)
      else (none, some EditError.timeFormat, none)
    else if field = "effects" || field = "scenarios" then
      let normalized := normalize_csv_text text
      if normalized = "" then (none, some EditError.emptyPrompt, none)
      else (some (EditValue.s normalized), none, some cfg.column)
    else (some (EditValue.s text), none, some cfg.column)

/-- The optional-string content of an edit value. -/
def editValStr : Option EditValue → Option String
  | some (EditValue.s v) => some v
  | _ => none

/-- The optional-integer content of an edit value. -/
def editValInt : Option EditValue → Option Int
  | some (EditValue.i v) => some v
  | _ => none

/-- The optional-rational content of an edit value. -/
def editValRat : Option EditValue → Option Rat
  | some (EditValue.r v) => some v
  | _ => none

/-- setattr of one column on a tasting row (the per-column effect of
the keyword updates of update_tasting_fields). -/
def applyColumnUpdate (t : TastingRow) (column : String)
    (v : Option EditValue) : TastingRow :=
  if column = "name" then { t with name := editValStr v }
  else if column = "year" then { t with year := editValInt v }
  else if column = "region" then { t with region := editValStr v }
  else if column = "grams" then { t with grams := editValRat v }
  else if column = "temp_c" then { t with temp_c := editValInt v }
  else if column = "tasted_at" then { t with tasted_at := editValStr v }
  else if column = "gear" then { t with gear := editValStr v }
  else if column = "aroma_dry" then { t with aroma_dry := editValStr v }
  else if column = "aroma_warmed" then { t with aroma_warmed := editValStr v }
  else if column = "effects_csv" then { t with effects_csv := editValStr v }
  else if column = "scenarios_csv" then { t with scenarios_csv := editValStr v }
  else if column = "summary" then { t with summary := editValStr v }
  else if column = "rating" then
    { t with rating := (editValInt v).getD t.rating }
  else if column = "category" then { t with category := editValStr v }
  else t

/-- Primary-key lookup in the tastings table (session.get by id; the
primary key is unique, so the first match is the row). -/
def findTasting (db : DB) (tid : Int) : Option TastingRow :=
  db.tastings.find? (fun t => t.id == tid)

/-- Embeds main.update_tasting_fields: nothing to update reports
failure; a missing row or a row owned by another user reports failure
with nothing written; otherwise the updates are applied to the row and
committed. -/
def update_tasting_fields (db : DB) (tid uid : Int)
    (updates : List (String × Option EditValue)) : DB × Bool :=
  if updates.isEmpty then (db, false)
  else
    match findTasting db tid with
    | none => (db, false)
    | some t =>
      if t.user_id != uid then (db, false)
      else
        ({ db with tastings := db.tastings.map (fun r =>
            if r.id == tid then
              updates.foldl (fun acc u => applyColumnUpdate acc u.1 u.2) r
            else r) },
         true)

/-- The two FSM states of the edit flow that carry text input. -/
inductive EditState
  | choosing
  | waiting_text
deriving Repr, DecidableEq

/-- Session bag of the edit flow (the keys edit_flow_msg and
ensure_edit_context read and write). -/
structure EditSession where
  state : EditState
  edit_t_id : Option Int
  edit_seq_no : Option Int
  edit_field : Option String
  awaiting_category_text : Bool
  edit_ctx_warned : Bool
deriving Repr, DecidableEq

/-- Python truthiness of an optional integer (None and 0 falsy). -/
def pyTruthyOptInt : Option Int → Bool
  | none => false
  | some v => v != 0

/-- Python truthiness of an optional string (None and the empty string
falsy). -/
def pyTruthyOptStr : Option String → Bool
  | none => false
  | some s => s != ""

/-- Observable outcome of one text message inside the edit flow. -/
inductive EditMsgResult
  | contextLost
  | validationError (e : EditError)
  | categoryEmpty
  | categoryTooLong
  | updated (field : String)
deriving Repr, DecidableEq

/-- Session after notify_edit_context_lost: the one-time notice marks
the session warned (a second loss keeps the flag set). -/
def lostSession (sess : EditSession) : EditSession :=
  { sess with edit_ctx_warned := true }

/-- Session after a successful ensure_edit_context, which clears the
warned flag. -/
def validSession (sess : EditSession) : EditSession :=
  { sess with edit_ctx_warned := false }

/-- Session after a successful field update: back to the field menu
with the pending field cleared. -/
def afterUpdateSession (sess : EditSession) : EditSession :=
  { sess with
    state := EditState.choosing
    edit_field := none
    awaiting_category_text := false
    edit_ctx_warned := false }

/-- Embeds main.edit_flow_msg (invoked with the session in the
waiting-text editing state): ensure_edit_context checks that the
session points at a record (edit_t_id truthy, edit_seq_no present) and
that the record exists and belongs to the sender, aborting with the
context-lost notice otherwise; then the category free-text branch with
its emptiness and length checks; then prepare_text_edit validation,
which on error answers the corrective prompt without advancing the
state or touching the database; a passing value is written through
update_tasting_fields (whose failure is reported as context loss). -/
def edit_flow_msg (db : DB) (uid : Int) (sess : EditSession)
    (text : String) : DB × EditSession × EditMsgResult :=
  if !pyTruthyOptInt sess.edit_t_id || sess.edit_seq_no.isNone then
    (db, lostSession sess, EditMsgResult.contextLost)
  else
    match sess.edit_t_id with
    | none => (db, lostSession sess, EditMsgResult.contextLost)
    | some tid =>
      match findTasting db tid with
      | none => (db, lostSession sess, EditMsgResult.contextLost)
      | some t =>
        if t.user_id != uid then
          (db, lostSession sess, EditMsgResult.contextLost)
        else if !pyTruthyOptStr sess.edit_field then
          (db, lostSession (validSession sess), EditMsgResult.contextLost)
        else
          match sess.edit_field with
          | none => (db, lostSession sess, EditMsgResult.contextLost)
          | some field =>
            if field = "category" && sess.awaiting_category_text then
              let txt := pyStrip text
              if txt = "" || txt = "-" then
                (db, validSession sess, EditMsgResult.categoryEmpty)
              else if 60 < txt.length then
                (db, validSession sess, EditMsgResult.categoryTooLong)
              else
                let upd := update_tasting_fields db tid uid
                  [("category", some (EditValue.s txt))]
                if upd.2 then
                  (upd.1, afterUpdateSession sess,
                   EditMsgResult.updated "category")
                else
                  (db, lostSession (validSession sess),
                   EditMsgResult.contextLost)
            else if (EDIT_TEXT_FIELDS field).isNone then
              (db, lostSession (validSession sess), EditMsgResult.contextLost)
            else
              match prepare_text_edit field text with
              | (_, some e, _) =>
                (db, validSession sess, EditMsgResult.validationError e)
              | (v, none, some col) =>
                let upd := update_tasting_fields db tid uid [(col, v)]
                if upd.2 then
                  (upd.1, afterUpdateSession sess, EditMsgResult.updated field)
                else
                  (db, lostSession (validSession sess),
                   EditMsgResult.contextLost)
              | (_, none, none) =>
                (db, lostSession (validSession sess), EditMsgResult.contextLost)

/-! ### Sample data for the concrete witnesses -/

/-- A tasting of user 7. -/
def rowA : TastingRow :=
  { id := 1, user_id := 7, seq_no := 1, name := some "Shu puer",
    category := some "Puer", year := some 2020, rating := 8 }

/-- A second tasting of user 7. -/
def rowB : TastingRow :=
  { id := 2, user_id := 7, seq_no := 2, name := some "Tieguanyin",
    category := some "Oolong", year := some 2021, rating := 6 }

/-- A tasting of user 9. -/
def rowC : TastingRow :=
  { id := 3, user_id := 9, seq_no := 1, name := some "Sencha",
    rating := 5 }

/-- A small database with two users. -/
def dbSmall : DB :=
  { nextId := 4, tastings := [rowB, rowA, rowC], infusions := [],
    photos := [] }

/-! ### Claims -/

/-- C3: for every user and every database state, the sequence-number
allocator returns max(existing seq_no of that user) + 1 when the user
has at least one tasting, and 1 when the user has none. -/
theorem C3_seq_allocator (db : DB) (uid : Int) :
    (userSeqNos db uid = [] → next_seq_for_user db uid = 1) ∧
    (∀ m : Int, m ∈ userSeqNos db uid →
      (∀ x ∈ userSeqNos db uid, x ≤ m) →
      next_seq_for_user db uid = m + 1) := by
  constructor
  · intro h
    simp [next_seq_for_user, h, pyOrInt]
  · intro m hmem hub
    have hanti : Std.Antisymm (fun x1 x2 : Int => x1 ≤ x2) :=
      ⟨fun ha hb => le_antisymm ha hb⟩
    have hmax : (userSeqNos db uid).max? = some m := by
      rw [List.max?_eq_some_iff (le_refl) (fun a b => max_choice a b)
        (fun a b c => max_le_iff)]
      exact ⟨hmem, hub⟩
    by_cases hm : m = 0
    · simp [next_seq_for_user, hmax, pyOrInt, hm]
    · simp [next_seq_for_user, hmax, pyOrInt, hm]

/-- Concrete instantiation of the C3 allocator contract: user 7 of the
sample database holds seq_nos 1 and 2, so the allocator returns 3;
user 11 holds none, so it returns 1. -/
theorem C3_seq_allocator_witness :
    next_seq_for_user dbSmall 7 = 3 ∧ next_seq_for_user dbSmall 11 = 1 := by
  constructor
  · exact (C3_seq_allocator dbSmall 7).2 2 (by decide) (by decide)
  · exact (C3_seq_allocator dbSmall 11).1 (by decide)

/-- C10: a search page request whose filter value is degenerate (name
or category blank after trimming, year not all digits, rating not an
integer) returns the empty page with no next-page flag, for every user
and database state. -/
theorem C10_degenerate_filter_empty_page (db : DB) (uid : Int)
    (extra : String) (min_id : Option Int) :
    (pyStrip extra = "" →
      fetch_tastings_page db uid FilterKind.name extra min_id = ([], false) ∧
      fetch_tastings_page db uid FilterKind.cat extra min_id = ([], false)) ∧
    (isPyDigit (pyStrip extra) = false →
      fetch_tastings_page db uid FilterKind.year extra min_id = ([], false)) ∧
    (pyInt? (pyStrip extra) = none →
      fetch_tastings_page db uid FilterKind.rating extra min_id = ([], false)) := by
  refine ⟨fun h => ⟨?_, ?_⟩, fun h => ?_, fun h => ?_⟩ <;>
    simp [fetch_tastings_page, apply_search_filters, h]

/-- Concrete instantiation of C10: a blank name filter, a non-numeric
year filter and a non-integer rating filter each yield the empty page
on the sample database. -/
theorem C10_degenerate_filter_witness :
    fetch_tastings_page dbSmall 7 FilterKind.name "   " none = ([], false) ∧
    fetch_tastings_page dbSmall 7 FilterKind.year "20x" none = ([], false) ∧
    fetch_tastings_page dbSmall 7 FilterKind.rating "high" none = ([], false) := by
  refine ⟨?_, ?_, ?_⟩
  · exact ((C10_degenerate_filter_empty_page dbSmall 7 "   " none).1 (by decide)).1
  · exact (C10_degenerate_filter_empty_page dbSmall 7 "20x" none).2.1 (by decide)
  · exact (C10_degenerate_filter_empty_page dbSmall 7 "high" none).2.2 (by decide)

/-- C5: a load-more invocation whose payload user segment differs from
the invoking user only yields the context-lost notice: no page query
is performed, no tasting record is returned and the throttle state is
untouched, whatever the database holds. -/
theorem C5_payload_user_mismatch (db : DB) (throttle : Int → Rat)
    (now : Rat) (callerUid : Int) (p : MorePayload)
    (h : p.uid ≠ callerUid) :
    more_last db throttle now callerUid (some p) =
      (MoreOutcome.contextLost, throttle) := by
  simp [more_last, h]

/-- Concrete instantiation of C5: user 9 invoking load-more with a
payload naming user 7 receives only the context-lost notice. -/
theorem C5_payload_user_mismatch_witness :
    more_last dbSmall (fun _ => 0) 5 9
      (some { uid := 7, min_id := 100, extra := "" }) =
      (MoreOutcome.contextLost, fun _ => 0) :=
  C5_payload_user_mismatch dbSmall (fun _ => 0) 5 9
    { uid := 7, min_id := 100, extra := "" } (by decide)

/-- A load-more invocation inside the throttle window is dropped with
no query performed and the throttle state untouched. -/
theorem more_last_gate_closed (db : DB) (throttle : Int → Rat) (now : Rat)
    (uid : Int) (p : MorePayload) (hp : (p.uid != uid) = false)
    (hlt : now - throttle uid < MORE_THROTTLE_INTERVAL) :
    more_last db throttle now uid (some p) =
      (MoreOutcome.throttled, throttle) := by
  have hg : more_allowed throttle now uid = (false, throttle) := by
    rw [more_allowed]
    rw [if_pos hlt]
  simp [more_last, hp, hg]

/-- A load-more invocation outside the throttle window records the
invocation time for its user and performs the page query (it is
neither throttled nor context-lost). -/
theorem more_last_gate_open (db : DB) (throttle : Int → Rat) (now : Rat)
    (uid : Int) (p : MorePayload) (hp : (p.uid != uid) = false)
    (hge : ¬(now - throttle uid < MORE_THROTTLE_INTERVAL)) :
    (more_last db throttle now uid (some p)).2 =
      (fun u => if u = uid then now else throttle u) ∧
    (more_last db throttle now uid (some p)).1 ≠ MoreOutcome.throttled ∧
    (more_last db throttle now uid (some p)).1 ≠ MoreOutcome.contextLost := by
  have hg : more_allowed throttle now uid =
      (true, fun u => if u = uid then now else throttle u) := by
    rw [more_allowed]
    rw [if_neg hge]
  rcases hf : fetch_tastings_page db uid FilterKind.last p.extra
    (some p.min_id) with ⟨rows, more⟩
  cases rows with
  | nil => simp [more_last, hp, hg, hf]
  | cons r rs => simp [more_last, hp, hg, hf]

/-- C6: two load-more invocations by one user inside the throttle
interval: the first (arriving at least one interval after the stored
last-invocation time) performs its query; the second, half a second
later, is silently ignored with no query and with the throttle state
unchanged (the window is not reset); hence a third invocation 1.1
seconds after the first performs its query again. -/
theorem C6_throttle_window (db : DB) (throttle : Int → Rat) (uid : Int)
    (p : MorePayload) (t0 : Rat) (hp : p.uid = uid)
    (h1 : MORE_THROTTLE_INTERVAL ≤ t0 - throttle uid) :
    ((more_last db throttle t0 uid (some p)).1 ≠ MoreOutcome.throttled ∧
      (more_last db throttle t0 uid (some p)).1 ≠ MoreOutcome.contextLost) ∧
    more_last db (more_last db throttle t0 uid (some p)).2 (t0 + 1 / 2) uid
        (some p) =
      (MoreOutcome.throttled, (more_last db throttle t0 uid (some p)).2) ∧
    (more_last db (more_last db throttle t0 uid (some p)).2 (t0 + 11 / 10) uid
        (some p)).1 ≠ MoreOutcome.throttled := by
  have hbne : (p.uid != uid) = false := by simp [hp]
  have hfirst := more_last_gate_open db throttle t0 uid p hbne (not_lt.mpr h1)
  refine ⟨⟨hfirst.2.1, hfirst.2.2⟩, ?_, ?_⟩
  · rw [hfirst.1]
    apply more_last_gate_closed db _ _ uid p hbne
    show t0 + 1 / 2 - (if uid = uid then t0 else throttle uid) <
      MORE_THROTTLE_INTERVAL
    rw [if_pos rfl]
    have harith : t0 + 1 / 2 - t0 = (1 : Rat) / 2 := by ring
    rw [harith, MORE_THROTTLE_INTERVAL]
    norm_num
  · rw [hfirst.1]
    have hge : ¬(t0 + 11 / 10 -
        (fun u => if u = uid then t0 else throttle u) uid <
        MORE_THROTTLE_INTERVAL) := by
      show ¬(t0 + 11 / 10 - (if uid = uid then t0 else throttle uid) <
        MORE_THROTTLE_INTERVAL)
      rw [if_pos rfl]
      have harith : t0 + 11 / 10 - t0 = (11 : Rat) / 10 := by ring
      rw [harith, MORE_THROTTLE_INTERVAL]
      norm_num
    exact (more_last_gate_open db _ _ uid p hbne hge).2.1

/-- A well-formed load-more payload of user 7. -/
def payload7 : MorePayload := { uid := 7, min_id := 100, extra := "" }

/-- Concrete instantiation of C6 at times 5, 5.5 and 6.1 with an
initially empty throttle map. -/
theorem C6_throttle_window_witness :
    ((more_last dbSmall (fun _ => 0) 5 7 (some payload7)).1 ≠
        MoreOutcome.throttled ∧
      (more_last dbSmall (fun _ => 0) 5 7 (some payload7)).1 ≠
        MoreOutcome.contextLost) ∧
    more_last dbSmall (more_last dbSmall (fun _ => 0) 5 7 (some payload7)).2
        (5 + 1 / 2) 7 (some payload7) =
      (MoreOutcome.throttled,
        (more_last dbSmall (fun _ => 0) 5 7 (some payload7)).2) ∧
    (more_last dbSmall (more_last dbSmall (fun _ => 0) 5 7 (some payload7)).2
        (5 + 11 / 10) 7 (some payload7)).1 ≠ MoreOutcome.throttled :=
  C6_throttle_window dbSmall (fun _ => 0) 7 payload7 5 rfl
    (by norm_num [MORE_THROTTLE_INTERVAL])

/-- C7 fails as stated: the wizard year step does not validate the
4-digit format. The input 20 fails the stated format, yet the code
stores the integer 20 (not unset) and advances. -/
theorem C7_counterexample :
    year_in "20" = (some 20, WizStep.region) ∧ "20".length ≠ 4 := by
  constructor
  · decide
  · decide

/-- C7 amended: in the creation wizard every parse failure is stored
as unset and the step always advances, but the accepted formats are
laxer than stated: the year step accepts any digit string (storing its
integer value, not only 4-digit years), the grams step accepts any
decimal, and the temperature step accepts any decimal and stores its
truncation toward zero. -/
theorem C7_lenient_numeric_parsing (txt : String) :
    ((year_in txt).2 = WizStep.region ∧
      (isPyDigit (pyStrip txt) = false → (year_in txt).1 = none) ∧
      (isPyDigit (pyStrip txt) = true →
        (year_in txt).1 = some ((decDigitsVal (pyStrip txt) : Int)))) ∧
    ((grams_in txt).2 = WizStep.temp_c ∧
      (pyFloat? (replaceChar ',' '.' txt) = none → (grams_in txt).1 = none) ∧
      (∀ q : Rat, pyFloat? (replaceChar ',' '.' txt) = some q →
        (grams_in txt).1 = some q)) ∧
    ((temp_in txt).2 = WizStep.tasted_at ∧
      (pyFloat? txt = none → (temp_in txt).1 = none) ∧
      (∀ q : Rat, pyFloat? txt = some q →
        (temp_in txt).1 = some (ratTruncToInt q))) := by
  refine ⟨⟨rfl, fun h => ?_, fun h => ?_⟩, ⟨rfl, fun h => ?_, fun q h => ?_⟩,
    ⟨rfl, fun h => ?_, fun q h => ?_⟩⟩ <;>
    simp [year_in, grams_in, temp_in, h]

/-- Concrete instantiation of the amended C7: non-numeric inputs to
the year, grams and temperature steps are stored as unset. -/
theorem C7_lenient_numeric_witness :
    (year_in "199x").1 = none ∧ (grams_in "5g").1 = none ∧
    (temp_in "hot").1 = none :=
  ⟨(C7_lenient_numeric_parsing "199x").1.2.1 (by decide),
   (C7_lenient_numeric_parsing "5g").2.1.2.1 (by decide),
   (C7_lenient_numeric_parsing "hot").2.2.2.1 (by decide)⟩

/-- C9: a field-update request naming a tasting id with no record, or
a record owned by a different user, writes nothing (the database is
returned unchanged) and reports failure to the caller. -/
theorem C9_foreign_update_rejected (db : DB) (tid uid : Int)
    (updates : List (String × Option EditValue))
    (h : findTasting db tid = none ∨
      ∃ t, findTasting db tid = some t ∧ t.user_id ≠ uid) :
    update_tasting_fields db tid uid updates = (db, false) := by
  by_cases he : updates.isEmpty
  · simp [update_tasting_fields, he]
  · rcases h with h | ⟨t, ht, hu⟩
    · simp [update_tasting_fields, he, h]
    · simp [update_tasting_fields, he, ht, hu]

/-- Concrete instantiation of C9: user 9 attempting to rename tasting
1 (owned by user 7) changes nothing and is rejected. -/
theorem C9_foreign_update_witness :
    update_tasting_fields dbSmall 1 9 [("name", some (EditValue.s "mine"))] =
      (dbSmall, false) :=
  C9_foreign_update_rejected dbSmall 1 9 _
    (Or.inr ⟨rowA, by decide, by decide⟩)

/-- Case analysis of the two-attempt retry loop: the outcome of
create_tasting is decided by whether the first and second attempts hit
the uniqueness violation. -/
theorem create_tasting_eq (db : DB) (td : TastingData)
    (infusions : List InfusionData) (photo_ids : List String)
    (conflict : Nat → Bool) :
    create_tasting db td infusions photo_ids conflict =
      if conflict 0 then
        (if conflict 1 then Except.error db
         else Except.ok (createdPair db td infusions photo_ids))
      else Except.ok (createdPair db td infusions photo_ids) := by
  by_cases h0 : conflict 0 = true
  · by_cases h1 : conflict 1 = true
    · simp [create_tasting, create_tasting_from, create_attempt,
        MAX_CREATE_ATTEMPTS, h0, h1]
    · simp [create_tasting, create_tasting_from, create_attempt,
        MAX_CREATE_ATTEMPTS, h0, h1]
  · simp [create_tasting, create_tasting_from, create_attempt,
      MAX_CREATE_ATTEMPTS, h0]

/-- The database after one successful creation transaction: exactly
one appended tasting row, exactly one appended infusion row per
bundle, exactly one appended photo row per reference, all child rows
referencing the new tasting id. -/
theorem createdPair_shape (db : DB) (td : TastingData)
    (infusions : List InfusionData) (photo_ids : List String) :
    ∀ db2 t, createdPair db td infusions photo_ids = (db2, t) →
      db2.tastings = db.tastings ++ [t] ∧
      (∃ newInf, db2.infusions = db.infusions ++ newInf ∧
        newInf.length = infusions.length ∧
        ∀ r ∈ newInf, r.tasting_id = t.id) ∧
      (∃ newPh, db2.photos = db.photos ++ newPh ∧
        newPh.length = photo_ids.length ∧
        ∀ r ∈ newPh, r.tasting_id = t.id) := by
  intro db2 t heq
  simp only [createdPair] at heq
  injection heq with hdb ht
  subst hdb
  subst ht
  refine ⟨by simp, ⟨_, rfl, by simp, ?_⟩, ⟨_, rfl, by simp, ?_⟩⟩
  · intro r hr
    obtain ⟨i, _, rfl⟩ := List.mem_map.mp hr
    rfl
  · intro r hr
    obtain ⟨fid, _, rfl⟩ := List.mem_map.mp hr
    rfl

/-- C2: create_tasting with N infusion bundles and P photo references
either succeeds, persisting exactly one tasting row, exactly N
infusion rows and exactly P photo rows, all children referencing the
new tasting id, or fails leaving the database unchanged; it fails
exactly when both the first attempt and its single retry hit the
uniqueness violation, in which case the error reaches the caller with
no partial state. -/
theorem C2_create_atomicity (db : DB) (td : TastingData)
    (infusions : List InfusionData) (photo_ids : List String)
    (conflict : Nat → Bool) :
    (∀ db2 t, create_tasting db td infusions photo_ids conflict =
        Except.ok (db2, t) →
      db2.tastings = db.tastings ++ [t] ∧
      (∃ newInf, db2.infusions = db.infusions ++ newInf ∧
        newInf.length = infusions.length ∧
        ∀ r ∈ newInf, r.tasting_id = t.id) ∧
      (∃ newPh, db2.photos = db.photos ++ newPh ∧
        newPh.length = photo_ids.length ∧
        ∀ r ∈ newPh, r.tasting_id = t.id)) ∧
    (∀ db2, create_tasting db td infusions photo_ids conflict =
        Except.error db2 → db2 = db) ∧
    ((∃ db2, create_tasting db td infusions photo_ids conflict =
        Except.error db2) ↔ conflict 0 = true ∧ conflict 1 = true) := by
  rw [create_tasting_eq]
  by_cases h0 : conflict 0 = true
  · by_cases h1 : conflict 1 = true
    · rw [if_pos h0, if_pos h1]
      refine ⟨?_, ?_, ?_⟩
      · intro db2 t heq
        exact absurd heq (by simp)
      · intro db2 heq
        injection heq with h
        exact h.symm
      · exact ⟨fun _ => ⟨h0, h1⟩, fun _ => ⟨db, rfl⟩⟩
    · rw [if_pos h0, if_neg h1]
      refine ⟨?_, ?_, ?_⟩
      · intro db2 t heq
        exact createdPair_shape db td infusions photo_ids db2 t
          (Except.ok.inj heq)
      · intro db2 heq
        exact absurd heq (by simp)
      · simp [h1]
  · rw [if_neg h0]
    refine ⟨?_, ?_, ?_⟩
    · intro db2 t heq
      exact createdPair_shape db td infusions photo_ids db2 t
        (Except.ok.inj heq)
    · intro db2 heq
      exact absurd heq (by simp)
    · simp [h0]

/-- The tasting bundle of the witness creation. -/
def td0 : TastingData := { user_id := 7, name := some "New shu", rating := 9 }

/-- Two infusion bundles of the witness creation. -/
def infs0 : List InfusionData :=
  [{ n := some 1, seconds := some 20 }, { n := some 2, seconds := some 30 }]

/-- The tasting row the witness creation persists: autoincrement id 4,
per-user sequence number 3. -/
def tNew : TastingRow :=
  { id := 4, user_id := 7, seq_no := 3, name := some "New shu", rating := 9 }

/-- The database after the witness creation. -/
def dbAfterCreate : DB :=
  { nextId := 5,
    tastings := [rowB, rowA, rowC, tNew],
    infusions :=
      [{ tasting_id := 4, n := some 1, seconds := some 20,
         liquor_color := none, taste := none, special_notes := none,
         body := none, aftertaste := none },
       { tasting_id := 4, n := some 2, seconds := some 30,
         liquor_color := none, taste := none, special_notes := none,
         body := none, aftertaste := none }],
    photos := [{ tasting_id := 4, file_id := "f1" }] }

/-- Concrete instantiation of C2: a conflict-free creation of a
tasting with two infusions and one photo on the sample database
appends exactly those rows, all referencing tasting id 4. -/
theorem C2_create_atomicity_witness :
    dbAfterCreate.tastings = dbSmall.tastings ++ [tNew] ∧
    (∃ newInf, dbAfterCreate.infusions = dbSmall.infusions ++ newInf ∧
      newInf.length = infs0.length ∧
      ∀ r ∈ newInf, r.tasting_id = tNew.id) ∧
    (∃ newPh, dbAfterCreate.photos = dbSmall.photos ++ newPh ∧
      newPh.length = ["f1"].length ∧
      ∀ r ∈ newPh, r.tasting_id = tNew.id) :=
  (C2_create_atomicity dbSmall td0 infs0 ["f1"] (fun _ => false)).1
    dbAfterCreate tNew rfl

/-- The wizard session bag of the C1 scenario. -/
def w0 : WizardData :=
  { user_id := 7, name := some "New shu", rating := some 9,
    infusions := infs0, new_photos := ["f1"] }

/-- C1 fails as stated: the persistence at wizard completion is not
equivalent to create_tasting including the single retry. On an
execution whose first insert hits the uniqueness violation (conflict
schedule true at attempt 0 only), create_tasting retries and succeeds,
while finalize_save — which has no retry (and takes no locking read) —
raises and persists nothing. -/
theorem C1_counterexample :
    finalize_save_persist dbSmall w0 ((fun k => k == 0) 0) =
      Except.error dbSmall ∧
    create_tasting dbSmall (finalize_tasting_data w0) w0.infusions
        (w0.new_photos.take MAX_PHOTOS) (fun k => k == 0) =
      Except.ok (createdPair dbSmall (finalize_tasting_data w0) w0.infusions
        (w0.new_photos.take MAX_PHOTOS)) ∧
    finalize_save_persist dbSmall w0 ((fun k => k == 0) 0) ≠
      create_tasting dbSmall (finalize_tasting_data w0) w0.infusions
        (w0.new_photos.take MAX_PHOTOS) (fun k => k == 0) := by
  refine ⟨rfl, rfl, ?_⟩
  have hne : (Except.error dbSmall : Except DB (DB × TastingRow)) ≠
      Except.ok (createdPair dbSmall (finalize_tasting_data w0) w0.infusions
        (w0.new_photos.take MAX_PHOTOS)) := by simp
  exact fun h => hne h

/-- C1 amended: in an execution with no uniqueness violation, the
inline persistence of finalize_save produces exactly the state and row
that create_tasting produces on the accumulated bundle, infusion list
and capped photo list; the two differ only in that finalize_save takes
no locking read and performs no retry on a violation. -/
theorem C1_finalize_matches_service (db : DB) (w : WizardData) :
    finalize_save_persist db w false =
      create_tasting db (finalize_tasting_data w) w.infusions
        (w.new_photos.take MAX_PHOTOS) (fun _ => false) := rfl

/-- A primary-key lookup after a keyed in-place update finds the
updated row, provided the update preserves the key. -/
theorem find_after_keyed_update (rows : List TastingRow) (tid : Int)
    (f : TastingRow → TastingRow) (hf : ∀ r, (f r).id = r.id) :
    (rows.map (fun r => if r.id == tid then f r else r)).find?
        (fun r => r.id == tid) =
      (rows.find? (fun r => r.id == tid)).map f := by
  induction rows with
  | nil => rfl
  | cons a as ih =>
    by_cases ha : (a.id == tid) = true
    · simp [List.find?, ha, hf]
    · simp only [List.map_cons, List.find?]
      rw [if_neg (by simp [ha])]
      simp only [ha]
      simpa [ha] using ih

/-- The edit-flow session waiting for year text for tasting tid. -/
def yearSession (tid seq : Int) : EditSession :=
  { state := EditState.waiting_text, edit_t_id := some tid,
    edit_seq_no := some seq, edit_field := some "year",
    awaiting_category_text := false, edit_ctx_warned := false }

/-- C8: in the edit flows year field, a digit string that is not
exactly 4 digits is rejected with the year-format error and neither
the database nor the session changes (the state does not advance); a
4-digit string is stored as the corresponding integer and the flow
returns to the field menu; the dash sentinel clears the field to
unset. -/
theorem C8_edit_year_validation (db : DB) (uid tid seq : Int)
    (t : TastingRow) (hfind : findTasting db tid = some t)
    (hown : t.user_id = uid) (htid : tid ≠ 0) :
    edit_flow_msg db uid (yearSession tid seq) "20" =
      (db, yearSession tid seq,
        EditMsgResult.validationError EditError.yearFormat) ∧
    ((edit_flow_msg db uid (yearSession tid seq) "2020").2.2 =
        EditMsgResult.updated "year" ∧
      (edit_flow_msg db uid (yearSession tid seq) "2020").2.1.state =
        EditState.choosing ∧
      ∃ t2, findTasting (edit_flow_msg db uid (yearSession tid seq) "2020").1
          tid = some t2 ∧ t2.year = some 2020 ∧ t2.user_id = t.user_id ∧
        t2.name = t.name) ∧
    ((edit_flow_msg db uid (yearSession tid seq) "-").2.2 =
        EditMsgResult.updated "year" ∧
      ∃ t3, findTasting (edit_flow_msg db uid (yearSession tid seq) "-").1
          tid = some t3 ∧ t3.year = none) := by
  have htidb : (tid != 0) = true := bne_iff_ne.mpr htid
  have hownb : (t.user_id != uid) = false := by simp [hown]
  have hyf : (("year" : String) != "") = true := by decide
  have hEF : (EDIT_TEXT_FIELDS "year").isNone = false := by decide
  have h20 : prepare_text_edit "year" "20" =
      (none, some EditError.yearFormat, none) := by decide
  have h2020 : prepare_text_edit "year" "2020" =
      (some (EditValue.i 2020), none, some "year") := by decide
  have hdash : prepare_text_edit "year" "-" =
      (none, none, some "year") := by decide
  have hid : ∀ (v : Option EditValue) (r : TastingRow),
      (applyColumnUpdate r "year" v).id = r.id := fun v r => rfl
  have hupd : ∀ (v : Option EditValue),
      update_tasting_fields db tid uid [("year", v)] =
        ({ db with tastings := db.tastings.map (fun r =>
            if r.id == tid then applyColumnUpdate r "year" v else r) },
         true) := by
    intro v
    simp [update_tasting_fields, hfind, hownb]
  refine ⟨?_, ?_, ?_⟩
  · simp [edit_flow_msg, yearSession, pyTruthyOptInt, pyTruthyOptStr,
      htidb, hownb, hyf, hEF, hfind, h20, validSession]
  · have heq : edit_flow_msg db uid (yearSession tid seq) "2020" =
        ({ db with tastings := db.tastings.map (fun r =>
            if r.id == tid then
              applyColumnUpdate r "year" (some (EditValue.i 2020))
            else r) },
         afterUpdateSession (yearSession tid seq),
         EditMsgResult.updated "year") := by
      simp [edit_flow_msg, yearSession, pyTruthyOptInt, pyTruthyOptStr,
        htidb, hownb, hyf, hEF, hfind, h2020, hupd]
    rw [heq]
    refine ⟨rfl, rfl, applyColumnUpdate t "year" (some (EditValue.i 2020)),
      ?_, rfl, rfl, rfl⟩
    show findTasting _ tid = _
    rw [findTasting]
    rw [find_after_keyed_update db.tastings tid _ (hid _)]
    rw [show db.tastings.find? (fun r => r.id == tid) = some t from hfind]
    rfl
  · have heq : edit_flow_msg db uid (yearSession tid seq) "-" =
        ({ db with tastings := db.tastings.map (fun r =>
            if r.id == tid then applyColumnUpdate r "year" none else r) },
         afterUpdateSession (yearSession tid seq),
         EditMsgResult.updated "year") := by
      simp [edit_flow_msg, yearSession, pyTruthyOptInt, pyTruthyOptStr,
        htidb, hownb, hyf, hEF, hfind, hdash, hupd]
    rw [heq]
    refine ⟨rfl, applyColumnUpdate t "year" none, ?_, rfl⟩
    show findTasting _ tid = _
    rw [findTasting]
    rw [find_after_keyed_update db.tastings tid _ (hid _)]
    rw [show db.tastings.find? (fun r => r.id == tid) = some t from hfind]
    rfl

/-- Concrete instantiation of C8 on the sample database: user 7
editing the year of tasting 1. -/
theorem C8_edit_year_witness :
    edit_flow_msg dbSmall 7 (yearSession 1 1) "20" =
      (dbSmall, yearSession 1 1,
        EditMsgResult.validationError EditError.yearFormat) ∧
    ((edit_flow_msg dbSmall 7 (yearSession 1 1) "2020").2.2 =
        EditMsgResult.updated "year" ∧
      (edit_flow_msg dbSmall 7 (yearSession 1 1) "2020").2.1.state =
        EditState.choosing ∧
      ∃ t2, findTasting (edit_flow_msg dbSmall 7 (yearSession 1 1) "2020").1
          1 = some t2 ∧ t2.year = some 2020 ∧ t2.user_id = rowA.user_id ∧
        t2.name = rowA.name) ∧
    ((edit_flow_msg dbSmall 7 (yearSession 1 1) "-").2.2 =
        EditMsgResult.updated "year" ∧
      ∃ t3, findTasting (edit_flow_msg dbSmall 7 (yearSession 1 1) "-").1
          1 = some t3 ∧ t3.year = none) :=
  C8_edit_year_validation dbSmall 7 1 1 rowA (by decide) (by decide)
    (by decide)

/-! ### Pagination lemmas (claim C4) -/

/-- getLast? membership. -/
theorem getLast?_mem_list {α : Type} {l : List α} {x : α}
    (hl : l.getLast? = some x) : x ∈ l := by
  obtain ⟨h, rfl⟩ := List.mem_getLast?_eq_getLast (by rw [hl]; exact rfl)
  exact List.getLast_mem h

/-- Inserting above every element of a descending list prepends. -/
theorem insertDescById_of_lt (t : TastingRow) (l : List TastingRow)
    (h : ∀ x ∈ l, x.id < t.id) : insertDescById t l = t :: l := by
  cases l with
  | nil => rfl
  | cons u us =>
    rw [insertDescById]
    rw [if_pos (le_of_lt (h u (by simp)))]

/-- Sorting a list already in strictly descending id order leaves it
unchanged. -/
theorem sortDescById_eq_self (l : List TastingRow) (h : IdsDesc l) :
    sortDescById l = l := by
  induction l with
  | nil => rfl
  | cons a as ih =>
    have hp := List.pairwise_cons.mp h
    have htail : sortDescById as = as := ih hp.2
    show insertDescById a (sortDescById as) = a :: as
    rw [htail]
    exact insertDescById_of_lt a as (fun x hx => hp.1 x hx)

/-- In a strictly descending list, the last element has the least
id. -/
theorem sorted_getLast_le (last : TastingRow) :
    ∀ l : List TastingRow, IdsDesc l → l.getLast? = some last →
      ∀ x ∈ l, last.id ≤ x.id := by
  intro l
  induction l with
  | nil =>
    intro _ hl
    simp at hl
  | cons a as ih =>
    intro hs hl x hx
    have hp := List.pairwise_cons.mp hs
    cases as with
    | nil =>
      have ha : a = last := by simpa using hl
      have hxa : x = a := by simpa using hx
      rw [hxa, ha]
    | cons b bs =>
      have hl2 : (b :: bs).getLast? = some last := by
        rw [List.getLast?_cons_cons] at hl
        exact hl
      rcases List.mem_cons.mp hx with rfl | hx2
      · exact le_of_lt (hp.1 last (getLast?_mem_list hl2))
      · exact ih hp.2 hl2 x hx2

/-- In a strictly descending list, the rows older than the last row of
the first k rows are exactly the rows after the first k. -/
theorem sorted_filter_lt_getLast (L : List TastingRow) (hs : IdsDesc L)
    (k : Nat) (last : TastingRow) (hl : (L.take k).getLast? = some last) :
    L.filter (fun t => decide (t.id < last.id)) = L.drop k := by
  have hs2 : (L.take k ++ L.drop k).Pairwise (fun a b => b.id < a.id) := by
    rw [List.take_append_drop]
    exact hs
  obtain ⟨htake, hdrop, hcross⟩ := List.pairwise_append.mp hs2
  have htake_le := sorted_getLast_le last (L.take k) htake hl
  have h1 : (L.take k).filter (fun t => decide (t.id < last.id)) = [] := by
    rw [List.filter_eq_nil_iff]
    intro a ha
    simp only [decide_eq_true_eq]
    exact not_lt.mpr (htake_le a ha)
  have h2 : (L.drop k).filter (fun t => decide (t.id < last.id)) =
      L.drop k := by
    rw [List.filter_eq_self]
    intro b hb
    simp only [decide_eq_true_eq]
    exact hcross last (getLast?_mem_list hl) b hb
  conv_lhs => rw [← List.take_append_drop k L]
  rw [List.filter_append, h1, h2, List.nil_append]

/-- The probe for one more matching row older than the last row of the
current page selects exactly the matching rows after the page. -/
theorem filter_below_last (db : DB) (uid : Int) (filt : TastingRow → Bool)
    (c : Option Int) (hsorted : IdsDesc db.tastings) (lastRow : TastingRow)
    (hlast : ((db.tastings.filter
        (fun t => t.user_id == uid && filt t && idBelow c t)).take
          PAGE_SIZE).getLast? = some lastRow) :
    db.tastings.filter
        (fun t => t.user_id == uid && filt t && decide (t.id < lastRow.id)) =
      (db.tastings.filter
        (fun t => t.user_id == uid && filt t && idBelow c t)).drop
        PAGE_SIZE := by
  set L := db.tastings.filter
    (fun t => t.user_id == uid && filt t && idBelow c t) with hL
  have hLs : IdsDesc L := hsorted.filter _
  have hlastL : lastRow ∈ L :=
    List.take_subset PAGE_SIZE L (getLast?_mem_list hlast)
  have hlastIdBelow : idBelow c lastRow = true := by
    have hmf := (List.mem_filter.mp (hL ▸ hlastL)).2
    simp only [Bool.and_eq_true] at hmf
    exact hmf.2
  have hkey : ∀ x : TastingRow, x.id < lastRow.id → idBelow c x = true := by
    intro x hx
    cases c with
    | none => rfl
    | some cv =>
      have hlt : lastRow.id < cv := by
        simpa [idBelow] using hlastIdBelow
      simp [idBelow]
      omega
  have hstep : db.tastings.filter
      (fun t => t.user_id == uid && filt t && decide (t.id < lastRow.id)) =
      L.filter (fun t => decide (t.id < lastRow.id)) := by
    rw [hL, List.filter_filter]
    apply List.filter_congr
    intro x _
    by_cases hB : x.id < lastRow.id
    · have hC := hkey x hB
      simp [hB, hC]
    · simp [hB]
  rw [hstep]
  exact sorted_filter_lt_getLast L hLs PAGE_SIZE lastRow hlast

/-- On a database in descending id order, a page query returns the
first PAGE_SIZE matching rows below the cursor, and the next-page flag
says whether any matching row remains after them. -/
theorem fetch_eq_take (db : DB) (uid : Int) (kind : FilterKind)
    (extra : String) (filt : TastingRow → Bool) (c : Option Int)
    (hfilt : apply_search_filters kind extra = some filt)
    (hsorted : IdsDesc db.tastings) :
    fetch_tastings_page db uid kind extra c =
      ((db.tastings.filter
          (fun t => t.user_id == uid && filt t && idBelow c t)).take
            PAGE_SIZE,
       !((db.tastings.filter
          (fun t => t.user_id == uid && filt t && idBelow c t)).drop
            PAGE_SIZE).isEmpty) := by
  set L := db.tastings.filter
    (fun t => t.user_id == uid && filt t && idBelow c t) with hL
  have hLs : IdsDesc L := hsorted.filter _
  have hsort : sortDescById L = L := sortDescById_eq_self L hLs
  rcases hlast : (L.take PAGE_SIZE).getLast? with _ | lastRow
  · have htake : L.take PAGE_SIZE = [] := List.getLast?_eq_none_iff.mp hlast
    have hLnil : L = [] := by
      rcases List.take_eq_nil_iff.mp htake with h | h
      · simp [PAGE_SIZE] at h
      · exact h
    simp only [fetch_tastings_page, hfilt, ← hL, hsort, hlast]
    simp [htake, hLnil]
  · have hprobe := filter_below_last db uid filt c hsorted lastRow
      (by rw [← hL]; exact hlast)
    simp only [fetch_tastings_page, hfilt, ← hL, hsort, hlast, ← hprobe]

/-- Iterating the load-more protocol with enough fuel returns, in
order, exactly the matching rows below the starting cursor. -/
theorem fetchPages_flatten (db : DB) (uid : Int) (kind : FilterKind)
    (extra : String) (filt : TastingRow → Bool)
    (hfilt : apply_search_filters kind extra = some filt)
    (hsorted : IdsDesc db.tastings) :
    ∀ fuel : Nat, ∀ c : Option Int,
      (db.tastings.filter
          (fun t => t.user_id == uid && filt t && idBelow c t)).length + 1 ≤
        fuel →
      (fetchPages db uid kind extra c fuel).flatten =
        db.tastings.filter
          (fun t => t.user_id == uid && filt t && idBelow c t) := by
  intro fuel
  induction fuel with
  | zero =>
    intro c hc
    omega
  | succ fuel ih =>
    intro c hc
    have hfetch := fetch_eq_take db uid kind extra filt c hfilt hsorted
    set L := db.tastings.filter
      (fun t => t.user_id == uid && filt t && idBelow c t) with hL
    rcases htake : L.take PAGE_SIZE with _ | ⟨r, rs⟩
    · have hLnil : L = [] := by
        rcases List.take_eq_nil_iff.mp htake with h | h
        · simp [PAGE_SIZE] at h
        · exact h
      simp only [fetchPages, hfetch, htake]
      simp [hLnil]
    · have hne : (r :: rs) ≠ [] := by simp
      have hlast2 : (L.take PAGE_SIZE).getLast? =
          some ((r :: rs).getLast hne) := by
        rw [htake]
        exact List.getLast?_eq_getLast _ hne
      set lastRow := (r :: rs).getLast hne with hlastRow
      have hnext : db.tastings.filter
          (fun t => t.user_id == uid && filt t &&
            idBelow (some lastRow.id) t) = L.drop PAGE_SIZE := by
        have hconv : db.tastings.filter
            (fun t => t.user_id == uid && filt t &&
              idBelow (some lastRow.id) t) =
            db.tastings.filter
            (fun t => t.user_id == uid && filt t &&
              decide (t.id < lastRow.id)) :=
          List.filter_congr (fun x _ => rfl)
        rw [hconv]
        exact filter_below_last db uid filt c hsorted lastRow hlast2
      by_cases hmore : (L.drop PAGE_SIZE).isEmpty = true
      · have hdropnil : L.drop PAGE_SIZE = [] := List.isEmpty_iff.mp hmore
        have htakeall : L.take PAGE_SIZE = L := by
          conv_rhs => rw [← List.take_append_drop PAGE_SIZE L]
          rw [hdropnil, List.append_nil]
        simp only [fetchPages, hfetch, htake, hmore]
        simp only [← htake, htakeall]
        simp
      · have hmf : (L.drop PAGE_SIZE).isEmpty = false := by
          cases hie : (L.drop PAGE_SIZE).isEmpty with
          | false => rfl
          | true => exact absurd hie hmore
        have hlen : 0 < L.length := by
          have hLne : L ≠ [] := by
            intro h
            rw [h] at htake
            simp at htake
          exact List.length_pos.mpr hLne
        have hfuel2 : (db.tastings.filter
            (fun t => t.user_id == uid && filt t &&
              idBelow (some lastRow.id) t)).length + 1 ≤ fuel := by
          rw [hnext, List.length_drop]
          simp only [PAGE_SIZE]
          omega
        have ihnext := ih (some lastRow.id) hfuel2
        rw [hnext] at ihnext
        simp only [fetchPages, hfetch, htake, hmf]
        simp only [Bool.not_false, if_true, List.flatten_cons, ihnext]
        rw [← htake, List.take_append_drop]

/-- The next-page flag of a nonempty page is set exactly when a
matching row older than the last row of the page exists. -/
theorem fetch_more_iff (db : DB) (uid : Int) (kind : FilterKind)
    (extra : String) (filt : TastingRow → Bool) (c : Option Int)
    (rows : List TastingRow) (more : Bool)
    (hfilt : apply_search_filters kind extra = some filt)
    (hfetch : fetch_tastings_page db uid kind extra c = (rows, more))
    (lastRow : TastingRow) (hlast : rows.getLast? = some lastRow) :
    more = true ↔ ∃ t ∈ db.tastings,
      (t.user_id == uid && filt t) = true ∧ t.id < lastRow.id := by
  simp only [fetch_tastings_page, hfilt] at hfetch
  rcases hg : ((sortDescById (db.tastings.filter
      (fun t => t.user_id == uid && filt t && idBelow c t))).take
        PAGE_SIZE).getLast? with _ | l0
  · rw [hg] at hfetch
    injection hfetch with h1 h2
    rw [← h1] at hlast
    simp at hlast
  · rw [hg] at hfetch
    injection hfetch with h1 h2
    rw [← h1] at hlast
    rw [hg] at hlast
    injection hlast with hlast
    subst hlast
    rw [← h2]
    constructor
    · intro hm
      have hne : db.tastings.filter
          (fun t => t.user_id == uid && filt t &&
            decide (t.id < l0.id)) ≠ [] := by
        intro hnil
        rw [hnil] at hm
        simp at hm
      obtain ⟨t, ht⟩ := List.exists_mem_of_ne_nil _ hne
      have hmem := List.mem_filter.mp ht
      have hsplit := hmem.2
      simp only [Bool.and_eq_true, beq_iff_eq, decide_eq_true_eq] at hsplit
      refine ⟨t, hmem.1, ?_, hsplit.2⟩
      simp only [Bool.and_eq_true, beq_iff_eq]
      exact hsplit.1
    · rintro ⟨t, htmem, hA, hlt⟩
      have hmem : t ∈ db.tastings.filter
          (fun t => t.user_id == uid && filt t &&
            decide (t.id < l0.id)) := by
        refine List.mem_filter.mpr ⟨htmem, ?_⟩
        simp only [Bool.and_eq_true, beq_iff_eq, decide_eq_true_eq]
        simp only [Bool.and_eq_true, beq_iff_eq] at hA
        exact ⟨hA, hlt⟩
      have hne := List.ne_nil_of_mem hmem
      simp [List.isEmpty_iff, hne]

/-- C4: on a database in descending id order, repeatedly requesting
pages (each subsequent request using as cursor the smallest id of the
previous page) returns exactly the matching rows of the user — no
duplicates, no omissions — in strictly descending id order, and the
next-page flag of any nonempty page is set exactly when an older
matching row exists. -/
theorem C4_pagination_cursor (db : DB) (uid : Int) (kind : FilterKind)
    (extra : String) (filt : TastingRow → Bool) (fuel : Nat)
    (hfilt : apply_search_filters kind extra = some filt)
    (hsorted : IdsDesc db.tastings)
    (hfuel : db.tastings.length + 1 ≤ fuel) :
    (fetchPages db uid kind extra none fuel).flatten =
      db.tastings.filter (fun t => t.user_id == uid && filt t) ∧
    IdsDesc (fetchPages db uid kind extra none fuel).flatten ∧
    (∀ c rows more, fetch_tastings_page db uid kind extra c = (rows, more) →
      ∀ lastRow, rows.getLast? = some lastRow →
      (more = true ↔ ∃ t ∈ db.tastings,
        (t.user_id == uid && filt t) = true ∧ t.id < lastRow.id)) := by
  have hlenle : (db.tastings.filter
      (fun t => t.user_id == uid && filt t && idBelow none t)).length + 1 ≤
      fuel := by
    have := db.tastings.length_filter_le
      (fun t => t.user_id == uid && filt t && idBelow none t)
    omega
  have hflat := fetchPages_flatten db uid kind extra filt hfilt hsorted
    fuel none hlenle
  have hcong : db.tastings.filter
      (fun t => t.user_id == uid && filt t && idBelow none t) =
      db.tastings.filter (fun t => t.user_id == uid && filt t) :=
    List.filter_congr (fun x _ => by simp [idBelow])
  refine ⟨?_, ?_, ?_⟩
  · rw [hflat, hcong]
  · rw [hflat, hcong]
    exact hsorted.filter _
  · intro c rows more hfetch lastRow hlast
    exact fetch_more_iff db uid kind extra filt c rows more hfilt hfetch
      lastRow hlast

/-- Twelve tastings of user 7, newest first. -/
def db12 : DB :=
  { nextId := 13,
    tastings := ([12, 11, 10, 9, 8, 7, 6, 5, 4, 3, 2, 1] : List Int).map
      (fun k => { id := k, user_id := 7, seq_no := k }),
    infusions := [], photos := [] }

/-- Concrete instantiation of C4: twelve matching records with page
size 5 paginate as pages of sizes 5, 5 and 2, together returning
exactly the twelve records. -/
theorem C4_pagination_witness :
    (fetchPages db12 7 FilterKind.last "" none 13).flatten =
      db12.tastings.filter (fun t => t.user_id == 7 && (fun _ => true) t) ∧
    (fetchPages db12 7 FilterKind.last "" none 13).map List.length =
      [5, 5, 2] :=
  ⟨(C4_pagination_cursor db12 7 FilterKind.last "" (fun _ => true) 13 rfl
      (by decide) (by decide)).1,
   by decide⟩

end TeaDiary
